import Mathlib

/-!
Verification development for the CommiTect CLI classification-and-caching
pipeline. The definitions below are a shallow embedding of the TypeScript
sources: the result cache (src/utils/cache.ts), the remote classifier client
and heuristic fallback classifier (the commit-message service module), and the
CLI commands that drive them. Machine integers are modelled as Nat with
explicit reduction modulo 2 ^ 32 where the source relies on 32-bit overflow
(inside the hash primitives); JS strings are modelled as Lean strings, acting
on their character lists.
-/

namespace CommiTect

set_option maxRecDepth 16000

/-! ### 32-bit word helpers (Node crypto hashes operate on 32-bit words) -/

/-- Reduce a natural number to a 32-bit word. -/
def w32 (n : Nat) : Nat := n % 4294967296

/-- 32-bit addition with wrap-around. -/
def add32 (a b : Nat) : Nat := w32 (a + b)

/-- Bitwise complement within 32 bits. -/
def not32 (a : Nat) : Nat := 4294967295 - a % 4294967296

/-- Rotate a 32-bit word right by `n` places. -/
def rotr32 (x n : Nat) : Nat := w32 ((x >>> n) ||| (x <<< (32 - n)))

/-- Rotate a 32-bit word left by `n` places. -/
def rotl32 (x n : Nat) : Nat := w32 ((x <<< n) ||| (x >>> (32 - n)))

/-! ### Hex rendering (Node `digest('hex')` produces lowercase hex) -/

/-- Lowercase hexadecimal digit for a nibble. -/
def hexDigit (n : Nat) : Char :=
  if n < 10 then Char.ofNat (48 + n) else Char.ofNat (87 + n)

/-- Big-endian lowercase hex rendering of one 32-bit word: exactly 8 chars. -/
def wordHex (w : Nat) : List Char :=
  [hexDigit ((w >>> 28) &&& 15), hexDigit ((w >>> 24) &&& 15),
   hexDigit ((w >>> 20) &&& 15), hexDigit ((w >>> 16) &&& 15),
   hexDigit ((w >>> 12) &&& 15), hexDigit ((w >>> 8) &&& 15),
   hexDigit ((w >>> 4) &&& 15), hexDigit (w &&& 15)]

/-! ### UTF-8 bytes (Node `hash.update(string)` encodes the string as UTF-8) -/

/-- UTF-8 encoding of one Unicode scalar value. -/
def utf8Char (c : Char) : List Nat :=
  let n := c.toNat
  if n < 128 then [n]
  else if n < 2048 then [192 ||| (n >>> 6), 128 ||| (n &&& 63)]
  else if n < 65536 then
    [224 ||| (n >>> 12), 128 ||| ((n >>> 6) &&& 63), 128 ||| (n &&& 63)]
  else
    [240 ||| (n >>> 18), 128 ||| ((n >>> 12) &&& 63),
     128 ||| ((n >>> 6) &&& 63), 128 ||| (n &&& 63)]

/-- Concatenation of a list of byte lists. -/
def concatBytes : List (List Nat) → List Nat
  | [] => []
  | b :: bs => b ++ concatBytes bs

/-- UTF-8 byte sequence of a string. -/
def utf8Bytes (s : String) : List Nat := concatBytes (s.data.map utf8Char)

/-! ### Merkle–Damgård padding shared by SHA-1 and SHA-256 -/

/-- 64-bit big-endian byte rendering of a natural number. -/
def be64 (n : Nat) : List Nat :=
  [(n >>> 56) &&& 255, (n >>> 48) &&& 255, (n >>> 40) &&& 255, (n >>> 32) &&& 255,
   (n >>> 24) &&& 255, (n >>> 16) &&& 255, (n >>> 8) &&& 255, n &&& 255]

/-- Append the 0x80 marker, zero padding and the 64-bit message bit length. -/
def mdPad (bytes : List Nat) : List Nat :=
  let l := bytes.length
  let z := (120 - (l + 1) % 64) % 64
  bytes ++ 128 :: List.replicate z 0 ++ be64 (8 * l)

/-- Group bytes into big-endian 32-bit words (input length a multiple of 4). -/
def bytesToWords : List Nat → List Nat
  | b0 :: b1 :: b2 :: b3 :: rest =>
      (b0 <<< 24 ||| b1 <<< 16 ||| b2 <<< 8 ||| b3) :: bytesToWords rest
  | _ => []

/-- Fuel-driven splitting of a word list into 16-word blocks. -/
def chunk16Aux : Nat → List Nat → List (List Nat)
  | 0, _ => []
  | _, [] => []
  | fuel + 1, ws => ws.take 16 :: chunk16Aux fuel (ws.drop 16)

/-- Split a word list into 16-word blocks. -/
def chunks16 (ws : List Nat) : List (List Nat) := chunk16Aux ws.length ws

/-! ### SHA-256 (the cache digest: `createHash('sha256')` in cache.ts) -/

/-- The eight 32-bit words of a SHA-256 working state. -/
structure Hash8 where
  a : Nat
  b : Nat
  c : Nat
  d : Nat
  e : Nat
  f : Nat
  g : Nat
  h : Nat
deriving DecidableEq

/-- SHA-256 round constants (FIPS 180-4). -/
def sha256K : List Nat := [
  1116352408, 1899447441, 3049323471, 3921009573, 961987163,
  1508970993, 2453635748, 2870763221, 3624381080, 310598401,
  607225278, 1426881987, 1925078388, 2162078206, 2614888103,
  3248222580, 3835390401, 4022224774, 264347078, 604807628,
  770255983, 1249150122, 1555081692, 1996064986, 2554220882,
  2821834349, 2952996808, 3210313671, 3336571891, 3584528711,
  113926993, 338241895, 666307205, 773529912, 1294757372,
  1396182291, 1695183700, 1986661051, 2177026350, 2456956037,
  2730485921, 2820302411, 3259730800, 3345764771, 3516065817,
  3600352804, 4094571909, 275423344, 430227734, 506948616,
  659060556, 883997877, 958139571, 1322822218, 1537002063,
  1747873779, 1955562222, 2024104815, 2227730452, 2361852424,
  2428436474, 2756734187, 3204031479, 3329325298]

/-- SHA-256 initial hash value. -/
def sha256Init : Hash8 :=
  ⟨1779033703, 3144134277, 1013904242, 2773480762,
   1359893119, 2600822924, 528734635, 1541459225⟩

/-- SHA-256 small sigma 0. -/
def ssig0 (x : Nat) : Nat := w32 ((rotr32 x 7) ^^^ (rotr32 x 18) ^^^ (x >>> 3))

/-- SHA-256 small sigma 1. -/
def ssig1 (x : Nat) : Nat := w32 ((rotr32 x 17) ^^^ (rotr32 x 19) ^^^ (x >>> 10))

/-- SHA-256 big sigma 0. -/
def bsig0 (x : Nat) : Nat := w32 ((rotr32 x 2) ^^^ (rotr32 x 13) ^^^ (rotr32 x 22))

/-- SHA-256 big sigma 1. -/
def bsig1 (x : Nat) : Nat := w32 ((rotr32 x 6) ^^^ (rotr32 x 11) ^^^ (rotr32 x 25))

/-- Choose function. -/
def chf (e f g : Nat) : Nat := w32 ((e &&& f) ^^^ (not32 e &&& g))

/-- Majority function. -/
def majf (a b c : Nat) : Nat := w32 ((a &&& b) ^^^ (a &&& c) ^^^ (b &&& c))

/-- Message-schedule extension; `acc` holds the words produced so far, newest
first; `n` counts the words still to produce. -/
def sha256SchedAux (acc : List Nat) : Nat → List Nat
  | 0 => acc.reverse
  | n + 1 =>
      let w := add32 (add32 (ssig1 (acc.getD 1 0)) (acc.getD 6 0))
                     (add32 (ssig0 (acc.getD 14 0)) (acc.getD 15 0))
      sha256SchedAux (w :: acc) n

/-- Extend a 16-word block to the 64-word SHA-256 message schedule. -/
def sha256Schedule (block : List Nat) : List Nat :=
  sha256SchedAux block.reverse 48

/-- One SHA-256 round. -/
def sha256Round (st : Hash8) (kw : Nat × Nat) : Hash8 :=
  let t1 := add32 st.h (add32 (bsig1 st.e)
              (add32 (chf st.e st.f st.g) (add32 kw.1 kw.2)))
  let t2 := add32 (bsig0 st.a) (majf st.a st.b st.c)
  ⟨add32 t1 t2, st.a, st.b, st.c, add32 st.d t1, st.e, st.f, st.g⟩

/-- Process one 512-bit block. -/
def sha256Block (st : Hash8) (block : List Nat) : Hash8 :=
  let t := (sha256K.zip (sha256Schedule block)).foldl sha256Round st
  ⟨add32 st.a t.a, add32 st.b t.b, add32 st.c t.c, add32 st.d t.d,
   add32 st.e t.e, add32 st.f t.f, add32 st.g t.g, add32 st.h t.h⟩

/-- SHA-256 of a byte sequence, as the final eight-word state. -/
def sha256Words (bytes : List Nat) : Hash8 :=
  (chunks16 (bytesToWords (mdPad bytes))).foldl sha256Block sha256Init

/-- Render an eight-word state as 64 lowercase hex characters. -/
def hash8Hex (st : Hash8) : String :=
  ⟨wordHex st.a ++ wordHex st.b ++ wordHex st.c ++ wordHex st.d ++
   wordHex st.e ++ wordHex st.f ++ wordHex st.g ++ wordHex st.h⟩

/-- `crypto.createHash('sha256').update(s).digest('hex')`. -/
def sha256Hex (s : String) : String := hash8Hex (sha256Words (utf8Bytes s))

/-! ### SHA-1 (the pipeline pre-hash: `createHash('sha1')` in the service) -/

/-- The five 32-bit words of a SHA-1 working state. -/
structure Hash5 where
  a : Nat
  b : Nat
  c : Nat
  d : Nat
  e : Nat
deriving DecidableEq

/-- SHA-1 initial hash value. -/
def sha1Init : Hash5 := ⟨1732584193, 4023233417, 2562383102, 271733878, 3285377520⟩

/-- SHA-1 message-schedule extension, newest word first in `acc`. -/
def sha1SchedAux (acc : List Nat) : Nat → List Nat
  | 0 => acc.reverse
  | n + 1 =>
      let w := rotl32 ((acc.getD 2 0) ^^^ (acc.getD 7 0) ^^^
                       (acc.getD 13 0) ^^^ (acc.getD 15 0)) 1
      sha1SchedAux (w :: acc) n

/-- Extend a 16-word block to the 80-word SHA-1 schedule. -/
def sha1Schedule (block : List Nat) : List Nat := sha1SchedAux block.reverse 64

/-- One SHA-1 round; the first component of the pair is the round index. -/
def sha1Round (st : Hash5) (iw : Nat × Nat) : Hash5 :=
  let f :=
    if iw.1 < 20 then w32 ((st.b &&& st.c) ||| (not32 st.b &&& st.d))
    else if iw.1 < 40 then w32 (st.b ^^^ st.c ^^^ st.d)
    else if iw.1 < 60 then w32 ((st.b &&& st.c) ||| (st.b &&& st.d) ||| (st.c &&& st.d))
    else w32 (st.b ^^^ st.c ^^^ st.d)
  let k :=
    if iw.1 < 20 then 1518500249
    else if iw.1 < 40 then 1859775393
    else if iw.1 < 60 then 2400959708
    else 3395469782
  ⟨add32 (rotl32 st.a 5) (add32 f (add32 st.e (add32 k iw.2))),
   st.a, rotl32 st.b 30, st.c, st.d⟩

/-- Indices 0..79 paired with the schedule words. -/
def sha1Indexed (ws : List Nat) : List (Nat × Nat) :=
  ((List.range 80).zip ws)

/-- Process one 512-bit SHA-1 block. -/
def sha1Block (st : Hash5) (block : List Nat) : Hash5 :=
  let t := (sha1Indexed (sha1Schedule block)).foldl sha1Round st
  ⟨add32 st.a t.a, add32 st.b t.b, add32 st.c t.c, add32 st.d t.d, add32 st.e t.e⟩

/-- SHA-1 of a byte sequence, as the final five-word state. -/
def sha1Words (bytes : List Nat) : Hash5 :=
  (chunks16 (bytesToWords (mdPad bytes))).foldl sha1Block sha1Init

/-- Render a five-word state as 40 lowercase hex characters. -/
def hash5Hex (st : Hash5) : String :=
  ⟨wordHex st.a ++ wordHex st.b ++ wordHex st.c ++ wordHex st.d ++ wordHex st.e⟩

/-- `crypto.createHash('sha1').update(s).digest('hex')`. -/
def sha1Hex (s : String) : String := hash5Hex (sha1Words (utf8Bytes s))

/-! ### JS string helpers, modelled over the character list -/

/-- The whitespace class used by `String.prototype.trim` and the `\s` regex
class, restricted to the characters that can occur in the data handled here
(ASCII whitespace plus no-break space). -/
def isJsSpace (c : Char) : Bool :=
  c = ' ' || c = '\t' || c = '\n' || c = '\r' || c = '\x0b' || c = '\x0c' || c = '\u00A0'

/-- Strip leading and trailing whitespace, as `String.prototype.trim`. -/
def jsTrim (s : String) : String :=
  ⟨((s.data.dropWhile isJsSpace).reverse.dropWhile isJsSpace).reverse⟩

/-- `s.startsWith(pre)`. -/
def startsWithStr (s pre : String) : Bool := pre.data.isPrefixOf s.data

/-- `s.split('\n')`: `cur` accumulates the current field in reverse. -/
def splitNlAux (cur : List Char) : List Char → List (List Char)
  | [] => [cur.reverse]
  | c :: rest =>
      if c = '\n' then cur.reverse :: splitNlAux [] rest
      else splitNlAux (c :: cur) rest

/-- `s.split('\n')`. -/
def splitNl (s : String) : List String := (splitNlAux [] s.data).map String.mk

/-- `s.substring(0, n)`, for strings where UTF-16 indices coincide with
character indices. -/
def jsTake (s : String) (n : Nat) : String := ⟨s.data.take n⟩

/-- `s.substring(n)` / dropping a fixed prefix. -/
def jsDrop (s : String) (n : Nat) : String := ⟨s.data.drop n⟩

/-! ### ResultCache (src/utils/cache.ts) -/

/-- A persisted cache record: `{hash, intent, message, timestamp, folder}`. -/
structure CacheEntry where
  hash : String
  intent : String
  message : String
  timestamp : Nat
  folder : String
deriving DecidableEq

/-- `CACHE_MAX_AGE`: 30 days in milliseconds. -/
def CACHE_MAX_AGE : Nat := 30 * 24 * 60 * 60 * 1000

/-- `hashDiff`: sha256 hex digest of the trimmed argument. -/
def hashDiff (diff : String) : String := sha256Hex (jsTrim diff)

/-- `Map.get`: the entry stored under a key, with entries kept in insertion
order as `Array.from(map.values())` observes them. -/
def mapFind (l : List CacheEntry) (key : String) : Option CacheEntry :=
  l.find? (fun e => e.hash == key)

/-- `Map.set`: replace in place if the key is present (keeping its position),
otherwise append. -/
def mapSet (l : List CacheEntry) (e : CacheEntry) : List CacheEntry :=
  if l.any (fun x => x.hash == e.hash) then
    l.map (fun x => if x.hash == e.hash then e else x)
  else l ++ [e]

/-- `Map.delete`. -/
def mapDelete (l : List CacheEntry) (key : String) : List CacheEntry :=
  l.filter (fun e => !(e.hash == key))

/-- The observable state of a `CommitCache`: the in-memory map (as the ordered
list of its values) and the persisted file contents. `saveCache` copies the
in-memory entries to the file (its failure path only logs and is not a state
change the caller can see). -/
structure CacheState where
  mem : List CacheEntry
  disk : List CacheEntry
deriving DecidableEq

/-- What `CommitCache.get` returns on a hit. -/
structure CachedSuggestion where
  intent : String
  message : String
  folder : String
deriving DecidableEq

/-- `CommitCache.get(diff)` at time `now`: hash the argument, look the entry
up, lazily evict it (and persist) when its age exceeds the TTL. -/
def cacheGet (c : CacheState) (diff : String) (now : Nat) :
    Option CachedSuggestion × CacheState :=
  match mapFind c.mem (hashDiff diff) with
  | none => (none, c)
  | some e =>
      if now - e.timestamp > CACHE_MAX_AGE then
        (none, ⟨mapDelete c.mem (hashDiff diff), mapDelete c.mem (hashDiff diff)⟩)
      else (some ⟨e.intent, e.message, e.folder⟩, c)

/-- `CommitCache.set(diff, intent, message)` at time `now` from working
directory `cwd`: store under the digest with the current timestamp, persist. -/
def cacheSet (c : CacheState) (diff intent message : String) (now : Nat)
    (cwd : String) : CacheState :=
  ⟨mapSet c.mem ⟨hashDiff diff, intent, message, now, cwd⟩,
   mapSet c.mem ⟨hashDiff diff, intent, message, now, cwd⟩⟩

/-- `CommitCache.clear()`: empty the map and persist. -/
def clearCache (_c : CacheState) : CacheState := ⟨[], []⟩

/-- What `CommitCache.getStats()` returns. -/
structure CacheStats where
  size : Nat
  oldestEntry : Option Nat
deriving DecidableEq

/-- `CommitCache.getStats()`. -/
def getStats (c : CacheState) : CacheStats :=
  ⟨c.mem.length,
   match c.mem.map (fun e => e.timestamp) with
   | [] => none
   | t :: ts => some (ts.foldl Nat.min t)⟩

/-- Comparator of `getHistory`: `(a, b) => b.timestamp - a.timestamp`, i.e.
newest first; `entLe a b` says `a` may precede `b`. -/
def entLe (a b : CacheEntry) : Bool := decide (b.timestamp ≤ a.timestamp)

/-- Insert into a list sorted by `entLe`. -/
def insertEnt (x : CacheEntry) : List CacheEntry → List CacheEntry
  | [] => [x]
  | y :: ys => if entLe x y then x :: y :: ys else y :: insertEnt x ys

/-- Sort newest-first, as `entries.sort((a, b) => b.timestamp - a.timestamp)`. -/
def sortDesc : List CacheEntry → List CacheEntry
  | [] => []
  | x :: xs => insertEnt x (sortDesc xs)

/-- `CommitCache.getHistory()`: all in-memory entries, newest first. -/
def getHistory (c : CacheState) : List CacheEntry := sortDesc c.mem

/-- `clearCacheCommand`: read `getStats()` first; when the cache is empty,
report nothing and leave it untouched; otherwise clear and report the prior
size. The first component is the count the command prints. -/
def clearCacheCommand (c : CacheState) : Option Nat × CacheState :=
  let stats := getStats c
  if stats.size == 0 then (none, c)
  else (some stats.size, clearCache c)

/-! ### Lexical pattern recognition (the regexes of `analyzeDiff`)

Each regex of the source is embedded as an executable matcher over the
character list. Word boundaries (`\b`) hold where a `[A-Za-z0-9_]` character
meets a non-word character or the edge of the string; the `/i` flag is
modelled by lowercasing the subject (the pattern words are already
lowercase). -/

/-- The regex `\w` class. -/
def isWordChar (c : Char) : Bool := c.isAlpha || c.isDigit || c = '_'

/-- Subject string lowered for a case-insensitive match. -/
def lowerList (s : String) : List Char := s.data.map Char.toLower

/-- Word boundary against the preceding character (`none` at string start). -/
def okLeft : Option Char → Bool
  | none => true
  | some c => !isWordChar c

/-- Word boundary against the rest of the string after a match. -/
def okRight : List Char → Bool
  | [] => true
  | c :: _ => !isWordChar c

/-- Does some word of `ws` occur with a word boundary on both sides?
Models `\b(w1|w2|...)\b` searched over the whole subject. -/
def wordScan (ws : List (List Char)) (prev : Option Char) : List Char → Bool
  | [] => false
  | c :: rest =>
      (okLeft prev &&
        ws.any (fun w => w.isPrefixOf (c :: rest) && okRight ((c :: rest).drop w.length)))
      || wordScan ws (some c) rest

/-- `/\b(fix(e[ds])?|bug|error|issue|crash|incorrect|fault)\b/i`, the
alternation expanded to its word list. -/
def bugFixWords : List (List Char) :=
  ["fix".data, "fixed".data, "fixes".data, "bug".data, "error".data,
   "issue".data, "crash".data, "incorrect".data, "fault".data]

/-- `/\b(refactor|cleanup|simplify|restructure|reorganize)\b/i`. -/
def refactorWords : List (List Char) :=
  ["refactor".data, "cleanup".data, "simplify".data, "restructure".data,
   "reorganize".data]

/-- `/\b(format|lint|prettier|indent)\b/i`. -/
def styleWords : List (List Char) :=
  ["format".data, "lint".data, "prettier".data, "indent".data]

/-- Case-insensitive boundary-delimited word search in a string. -/
def hasWordCI (ws : List (List Char)) (s : String) : Bool :=
  wordScan ws none (lowerList s)

/-- Does some word of `ws` occur ending at a word boundary (no constraint on
its left), as `.*(test|spec)\b` requires for the trailing group? -/
def wordEndScan (ws : List (List Char)) : List Char → Bool
  | [] => false
  | c :: rest =>
      ws.any (fun w => w.isPrefixOf (c :: rest) && okRight ((c :: rest).drop w.length))
      || wordEndScan ws rest

/-- One-line matcher for `/\b(fix|repair|correct).*(test|spec)\b/i`: a
boundary-started occurrence of the first group followed, later in the same
line (`.` does not cross a newline), by an occurrence of the second group
ending at a boundary. -/
def testFixScan (prev : Option Char) : List Char → Bool
  | [] => false
  | c :: rest =>
      (okLeft prev &&
        (["fix".data, "repair".data, "correct".data].any (fun w =>
          w.isPrefixOf (c :: rest) &&
            wordEndScan ["test".data, "spec".data] ((c :: rest).drop w.length))))
      || testFixScan (some c) rest

/-- `matchesAny(patterns.testFix, diff)`; since `.` cannot cross `\n`, the
match lives within a single line of the diff. -/
def testFixSignal (diff : String) : Bool :=
  (splitNl diff).any (fun l => testFixScan none (lowerList l))

/-- Case-insensitive substring occurrence (`sub` given lowercase). -/
def subScan (w : List Char) : List Char → Bool
  | [] => w.isEmpty
  | c :: rest => w.isPrefixOf (c :: rest) || subScan w rest

/-- Case-insensitive substring test. -/
def containsCI (sub : String) (s : String) : Bool := subScan sub.data (lowerList s)

/-- Case-insensitive suffix test (`suf` given lowercase). -/
def endsWithCI (suf : String) (s : String) : Bool := suf.data.isSuffixOf (lowerList s)

/-- `/\.(md|rst|txt)$/i.test(f) || /readme/i.test(f)`. -/
def isDocsFile (f : String) : Bool :=
  endsWithCI ".md" f || endsWithCI ".rst" f || endsWithCI ".txt" f ||
  containsCI "readme" f

/-- `/(__tests__|\.test\.|\.spec\.)/i`. -/
def isTestFile (f : String) : Bool :=
  containsCI "__tests__" f || containsCI ".test." f || containsCI ".spec." f

/-- `/\.(json|ya?ml|env|toml)$/i`. -/
def isConfigFile (f : String) : Bool :=
  endsWithCI ".json" f || endsWithCI ".yaml" f || endsWithCI ".yml" f ||
  endsWithCI ".env" f || endsWithCI ".toml" f

/-- `/(package(-lock)?\.json|requirements\.txt|go\.mod|pom\.xml)/i`. -/
def isDependencyFile (f : String) : Bool :=
  containsCI "package.json" f || containsCI "package-lock.json" f ||
  containsCI "requirements.txt" f || containsCI "go.mod" f ||
  containsCI "pom.xml" f

/-- `\s*` (greedy, the following token never starts with whitespace). -/
def wsDrop (l : List Char) : List Char := l.dropWhile isJsSpace

/-- `kw\s+` followed by the rest: the keyword, at least one whitespace, then
the remaining input with the whitespace run consumed. -/
def kwThenWs (kw : List Char) (l : List Char) : Option (List Char) :=
  if kw.isPrefixOf l then
    match l.drop kw.length with
    | c :: rest => if isJsSpace c then some (wsDrop (c :: rest)) else none
    | [] => none
  else none

/-- `(kw\s+)?` then a continuation: the match succeeds with or without the
optional group (regex backtracking tries both). -/
def optKw (kw : List Char) (l : List Char) (k : List Char → Bool) : Bool :=
  (match kwThenWs kw l with
   | some r => k r
   | none => false) || k l

/-- `function\s+\w+`. -/
def fnDeclTail (l : List Char) : Bool :=
  match kwThenWs "function".data l with
  | some r =>
      match r with
      | c :: _ => isWordChar c
      | [] => false
  | none => false

/-- `const\s+\w+\s*=\s*(async\s*)?\(`. -/
def constDeclTail (l : List Char) : Bool :=
  match kwThenWs "const".data l with
  | some r =>
      match r with
      | c :: _ =>
          isWordChar c &&
            (match wsDrop (r.dropWhile isWordChar) with
             | '=' :: r4 =>
                 let r5 := wsDrop r4
                 (if "async".data.isPrefixOf r5 then
                    match wsDrop (r5.drop 5) with
                    | '(' :: _ => true
                    | _ => false
                  else false) ||
                 (match r5 with
                  | '(' :: _ => true
                  | _ => false)
             | _ => false)
      | [] => false
  | none => false

/-- `/^\+\s*(export\s+)?(async\s+)?function\s+\w+/` or
`/^\+\s*(export\s+)?const\s+\w+\s*=\s*(async\s*)?\(/` on one added line. -/
def newFunctionLine (l : String) : Bool :=
  match l.data with
  | '+' :: r =>
      let r1 := wsDrop r
      optKw "export".data r1 (fun r2 => optKw "async".data r2 fnDeclTail) ||
      optKw "export".data r1 constDeclTail
  | _ => false

/-- `class\s+\w+`. -/
def classDeclTail (l : List Char) : Bool :=
  match kwThenWs "class".data l with
  | some r =>
      match r with
      | c :: _ => isWordChar c
      | [] => false
  | none => false

/-- `/^\+\s*(export\s+)?class\s+\w+/`. -/
def newClassLine (l : String) : Bool :=
  match l.data with
  | '+' :: r => optKw "export".data (wsDrop r) classDeclTail
  | _ => false

/-- The ten alternatives of `\b(app|router)\.(get|post|put|delete|patch)\b`,
lowercase. -/
def endpointCallWords : List (List Char) :=
  ["app.get".data, "app.post".data, "app.put".data, "app.delete".data,
   "app.patch".data, "router.get".data, "router.post".data, "router.put".data,
   "router.delete".data, "router.patch".data]

/-- `/\b(app|router)\.(get|post|put|delete|patch)\b/i` on one added line. -/
def endpointCallLine (l : String) : Bool :=
  wordScan endpointCallWords none (lowerList l)

/-- `/^\+\s*@(Get|Post|Put|Delete|Patch)\b/m` on one line of the diff
(case-sensitive). -/
def decoratorLine (l : String) : Bool :=
  match l.data with
  | '+' :: r =>
      match wsDrop r with
      | '@' :: r2 =>
          ["Get".data, "Post".data, "Put".data, "Delete".data, "Patch".data].any
            (fun w => w.isPrefixOf r2 && okRight (r2.drop w.length))
      | _ => false
  | _ => false

/-- First character is an ASCII capital, as `[A-Z]` requires (`\w*` after it
is vacuous). -/
def headUpper : List Char → Bool
  | c :: _ => c.isUpper
  | [] => false

/-- `/^\+\s*(export\s+)?(function|const)\s+[A-Z]\w*/` on one added line. -/
def componentDeclLine (l : String) : Bool :=
  match l.data with
  | '+' :: r =>
      optKw "export".data (wsDrop r) (fun r2 =>
        (match kwThenWs "function".data r2 with
         | some r3 => headUpper r3
         | none => false) ||
        (match kwThenWs "const".data r2 with
         | some r3 => headUpper r3
         | none => false))
  | _ => false

/-- `/^\+\s*(\/\/|\/\*|\*)/` on one added line. -/
def commentLine (l : String) : Bool :=
  match l.data with
  | '+' :: r =>
      let r1 := wsDrop r
      "//".data.isPrefixOf r1 || "/*".data.isPrefixOf r1 ||
      (match r1 with
       | '*' :: _ => true
       | _ => false)
  | _ => false

/-- The `[{}();,]` class. -/
def isPunct (c : Char) : Bool :=
  c = '{' || c = '}' || c = '(' || c = ')' || c = ';' || c = ','

/-- `/^[+-]\s*$/`. -/
def trivialA (l : List Char) : Bool :=
  match l with
  | c :: rest => (c = '+' || c = '-') && (rest.dropWhile isJsSpace).isEmpty
  | [] => false

/-- `/^[+-]\s*[{}();,]*\s*$/`. -/
def trivialB (l : List Char) : Bool :=
  match l with
  | c :: rest =>
      (c = '+' || c = '-') &&
      ((((rest.dropWhile isJsSpace).dropWhile isPunct).dropWhile isJsSpace).isEmpty)
  | [] => false

/-- `isTrivialWhitespace`: every changed line matches one of the two shapes. -/
def isTrivialWhitespace (ls : List String) : Bool :=
  ls.all (fun l => trivialA l.data || trivialB l.data)

/-- The backtracking point of `^diff --git a\/(.+?) b\/(.+)$`: the earliest
position (at least one character into the remainder, so that the lazy first
group is nonempty) where ` b/` occurs with a nonempty second group after
it. -/
def afterBSlash : List Char → Option (List Char)
  | [] => none
  | c :: rest =>
      if " b/".data.isPrefixOf (c :: rest) && !(rest.drop 2).isEmpty then
        some (rest.drop 2)
      else afterBSlash rest

/-- One line of `/^diff --git a\/(.+?) b\/(.+)$/gm`: the second capture
group when the line matches. -/
def fileOfLine (l : String) : Option String :=
  let d := l.data
  if "diff --git a/".data.isPrefixOf d then
    match d.drop 13 with
    | [] => none
    | _ :: rest => (afterBSlash rest).map (fun t => ⟨t⟩)
  else none

/-- First-occurrence deduplication, as insertion into a `Set` behaves. -/
def dedupStr (seen : List String) : List String → List String
  | [] => []
  | x :: xs =>
      if seen.contains x then dedupStr seen xs
      else x :: dedupStr (x :: seen) xs

/-- `extractFilesFromDiff`. -/
def extractFilesFromDiff (diff : String) : List String :=
  dedupStr [] ((splitNl diff).filterMap fileOfLine)

/-! ### The heuristic classifier (`analyzeDiff` / `determineIntent` /
`generateMessage` / `generateFallbackCommit`) -/

/-- The optional `{total?, renamed?}` summary. -/
structure ChangeSummary where
  total : Option Nat := none
  renamed : Option Nat := none
deriving DecidableEq

/-- The `DiffAnalysis` feature vector. -/
structure DiffAnalysis where
  hasBugFix : Bool
  hasTestFix : Bool
  hasNewFunction : Bool
  hasNewClass : Bool
  hasNewEndpoint : Bool
  hasNewComponent : Bool
  hasRefactor : Bool
  hasRename : Bool
  hasMovedCode : Bool
  hasDocsChange : Bool
  hasCommentChange : Bool
  hasTestChange : Bool
  hasDeletions : Bool
  hasStyleChange : Bool
  hasWhitespaceOnly : Bool
  hasConfigChange : Bool
  hasDependencyChange : Bool
  additions : Nat
  deletions : Nat
  hasChanges : Bool
deriving DecidableEq

/-- `analyzeDiff(diff, summary)`. -/
def analyzeDiff (diff : String) (summary : ChangeSummary) : DiffAnalysis :=
  let lines := splitNl diff
  let files := extractFilesFromDiff diff
  let addedLines := lines.filter
    (fun l => startsWithStr l "+" && !startsWithStr l "+++")
  let removedLines := lines.filter
    (fun l => startsWithStr l "-" && !startsWithStr l "---")
  let additions := addedLines.length
  let deletions := removedLines.length
  let hasTestChange := files.any isTestFile
  { hasBugFix := hasWordCI bugFixWords diff
    hasTestFix := hasTestChange && testFixSignal diff
    hasNewFunction := addedLines.any newFunctionLine
    hasNewClass := addedLines.any newClassLine
    hasNewEndpoint := addedLines.any endpointCallLine || lines.any decoratorLine
    hasNewComponent :=
      files.any (fun f => endsWithCI ".jsx" f || endsWithCI ".tsx" f) &&
      addedLines.any componentDeclLine
    hasRefactor := hasWordCI refactorWords diff
    hasRename := decide (summary.renamed.getD 0 > 0)
    hasMovedCode :=
      decide (summary.renamed.getD 0 > 0) && decide (additions > 0) &&
      decide (deletions > 0)
    hasDocsChange := files.any isDocsFile
    hasCommentChange := addedLines.any commentLine
    hasTestChange := hasTestChange
    hasDeletions := decide (deletions > 0)
    hasStyleChange := hasWordCI styleWords diff
    hasWhitespaceOnly :=
      decide (additions + deletions > 0) &&
      isTrivialWhitespace (addedLines ++ removedLines)
    hasConfigChange := files.any isConfigFile
    hasDependencyChange := files.any isDependencyFile
    additions := additions
    deletions := deletions
    hasChanges := decide (additions + deletions > 0) }

/-- `determineIntent(analysis, summary)`; the `summary` parameter of the
source is unused in its body and omitted here. -/
def determineIntent (a : DiffAnalysis) : String :=
  if !a.hasChanges then "Chore"
  else if a.hasBugFix || a.hasTestFix then "Bug Fix"
  else if a.hasTestChange && !a.hasBugFix then "Test"
  else if a.hasDocsChange then "Documentation"
  else if a.hasRefactor || a.hasMovedCode ||
          decide (a.deletions > a.additions * 2) then "Refactor"
  else if a.hasNewFunction || a.hasNewClass || a.hasNewComponent ||
          a.hasNewEndpoint then "Feature"
  else if a.hasDependencyChange || a.hasConfigChange then "Chore"
  else if a.hasStyleChange || a.hasWhitespaceOnly then "Style"
  else "Update"

/-- Decimal digits of a natural number, with enough fuel to terminate
structurally (so that the kernel can evaluate it). -/
def decDigitsAux : Nat → Nat → List Char
  | 0, _ => []
  | fuel + 1, n =>
      if n < 10 then [hexDigit n]
      else decDigitsAux fuel (n / 10) ++ [hexDigit (n % 10)]

/-- Decimal rendering of a file count, as `${fileCount}` displays an
integer below 10^21. -/
def numToStr (n : Nat) : String := ⟨decDigitsAux (n + 1) n⟩

/-- `typeof fileCount === 'number' && fileCount > 0`. -/
def hasFileCount (s : ChangeSummary) : Bool :=
  match s.total with
  | some n => decide (0 < n)
  | none => false

/-- `fileCount === 1 ? 'file' : 'files'`. -/
def fileWord (s : ChangeSummary) : String :=
  match s.total with
  | some n => if n == 1 then "file" else "files"
  | none => "files"

/-- `generateMessage(analysis, intent, summary)`. -/
def generateMessage (a : DiffAnalysis) (intent : String)
    (s : ChangeSummary) : String :=
  let hasFC := hasFileCount s
  let fw := fileWord s
  let fc := s.total.getD 0
  if intent = "Bug Fix" then
    if a.hasTestFix then
      if hasFC then "fix failing tests in " ++ numToStr fc ++ " " ++ fw
      else "fix failing tests"
    else
      if hasFC then "fix issues in " ++ numToStr fc ++ " " ++ fw
      else "fix issues"
  else if intent = "Feature" then
    if a.hasNewEndpoint then "add new API endpoints"
    else if a.hasNewComponent then "add new components"
    else if a.hasNewClass || a.hasNewFunction then
      if hasFC then "add new functionality to " ++ numToStr fc ++ " " ++ fw
      else "add new functionality"
    else
      if hasFC then "implement new features in " ++ numToStr fc ++ " " ++ fw
      else "implement new features"
  else if intent = "Refactor" then
    if a.hasMovedCode then
      if hasFC then "restructure code in " ++ numToStr fc ++ " " ++ fw
      else "restructure code"
    else if decide (a.deletions > a.additions * 2) then
      if hasFC then "remove unused code from " ++ numToStr fc ++ " " ++ fw
      else "remove unused code"
    else
      if hasFC then "refactor code in " ++ numToStr fc ++ " " ++ fw
      else "refactor code"
  else if intent = "Test" then
    if hasFC then "add/update tests in " ++ numToStr fc ++ " " ++ fw
    else "add/update tests"
  else if intent = "Chore" then
    if a.hasDependencyChange then "update dependencies"
    else if a.hasConfigChange then "update configuration files"
    else "update project configuration"
  else if intent = "Style" then
    if hasFC then "format and style " ++ numToStr fc ++ " " ++ fw
    else "format and style code"
  else if intent = "Documentation" then
    if hasFC then
      if fc == 1 then "update documentation"
      else "update documentation in " ++ numToStr fc ++ " " ++ fw
    else "update documentation"
  else
    if hasFC then "update " ++ numToStr fc ++ " " ++ fw
    else "update code"

/-! ### RemoteClassifier (`parseResponse` and the retry loop of
`generateCommitMessage`) -/

/-- The `CommitSuggestion` interface: `{intent, message}`. -/
structure CommitSuggestion where
  intent : String
  message : String
deriving DecidableEq

/-- The label scan of `parseResponse`: walk the lines keeping the last
`Intent:` and `Message:` values (initially empty). -/
def parseLabels (lines : List String) : String × String :=
  lines.foldl
    (fun (p : String × String) line =>
      if startsWithStr line "Intent:" then (jsTrim (jsDrop line 7), p.2)
      else if startsWithStr line "Message:" then (p.1, jsTrim (jsDrop line 8))
      else p)
    ("", "")

/-- The decision part of `parseResponse`, applied to the scanned labels. -/
def checkLabels (st : String × String) : Except String CommitSuggestion :=
  if st.1 = "" ∨ st.2 = "" then .error "Invalid response format from LLM"
  else if st.2.length > 70 then .ok ⟨st.1, jsTake st.2 67 ++ "..."⟩
  else .ok ⟨st.1, st.2⟩

/-- `parseResponse(response)` as a whole. -/
def parseResponse (response : String) : Except String CommitSuggestion :=
  checkLabels (parseLabels (splitNl (jsTrim response)))

/-- What one `axios.post` attempt can produce, as the `try` block observes
it: a reply (whose `intent` field may be absent or empty, modelled as
`none`), an `AxiosError` carrying a response status, an `AxiosError`
carrying only a network error code, or a non-Axios exception. -/
inductive RemoteOutcome where
  | reply (body : Option String)
  | httpStatus (status : Nat)
  | netCode (code : String)
  | thrown
deriving DecidableEq

/-- The classes of error the `catch` block distinguishes. -/
inductive CaughtErr where
  | axiosStatus (status : Nat)
  | axiosNet (code : String)
  | plain
deriving DecidableEq

/-- The result of one iteration of the `try` block: a parsed suggestion, or
the error the `catch` receives (a missing/empty body and a parse failure
both throw a plain `Error`). -/
def attemptResult : RemoteOutcome → Except CaughtErr CommitSuggestion
  | .reply none => .error .plain
  | .reply (some body) =>
      match parseResponse body with
      | .ok r => .ok r
      | .error _ => .error .plain
  | .httpStatus s => .error (.axiosStatus s)
  | .netCode c => .error (.axiosNet c)
  | .thrown => .error .plain

/-- The `break` condition: an Axios error with a truthy status below 500
other than 429 (`error.response?.status && status < 500 && status !== 429`).
Every other error reaches the final retry-on-other-errors branch. -/
def isClientError : CaughtErr → Bool
  | .axiosStatus s => decide (s ≠ 0) && decide (s < 500) && decide (s ≠ 429)
  | _ => false

/-- The retry loop of `generateCommitMessage` with `maxRetries = 3`:
`attempt` is the 1-based attempt counter, `fuel` bounds the recursion.
Returns the parsed suggestion (or `none` when the loop ends in failure) and
the number of attempts performed. -/
def runRemoteAux (f : Nat → RemoteOutcome) : Nat → Nat →
    Option CommitSuggestion × Nat
  | _, 0 => (none, 0)
  | attempt, fuel + 1 =>
      match attemptResult (f attempt) with
      | .ok r => (some r, attempt)
      | .error e =>
          if isClientError e then (none, attempt)
          else if attempt < 3 then runRemoteAux f (attempt + 1) fuel
          else (none, attempt)

/-- The whole retry loop, attempts 1 to 3. -/
def runRemote (f : Nat → RemoteOutcome) : Option CommitSuggestion × Nat :=
  runRemoteAux f 1 3

/-! ### Orchestrator (`generateCommitMessage` and `generateFallbackCommit`) -/

/-- What `generateCommitMessage` hands back to its caller. A cache hit
returns the cached record, which carries a `folder` field; a freshly
computed suggestion has no such field (`none`). -/
structure PipelineResult where
  intent : String
  message : String
  folder : Option String
deriving DecidableEq

/-- The pure value `generateFallbackCommit` computes from the diff and the
summary (its cache write is performed by the orchestrator model). -/
def fallbackSuggestion (diff : String) (summary : ChangeSummary) :
    PipelineResult :=
  let a := analyzeDiff diff summary
  let intent := determineIntent a
  ⟨intent, generateMessage a intent summary, none⟩

/-- The cache key `generateCommitMessage` uses: the cache digest of the
sha1 hex digest of the raw diff (line 41 of the service feeds
`crypto.createHash('sha1')...digest('hex')` into `commitCache.get`, which
hashes its argument again with `hashDiff`). -/
def pipelineCacheKey (diff : String) : String := hashDiff (sha1Hex diff)

/-- `generateCommitMessage(diff, summary)`: cache lookup on the sha1 digest,
then the remote retry loop, then the heuristic fallback. The environment is
explicit: `f` gives the outcome of each remote attempt, `now` the clock,
`cwd` the working-directory name, `c` the cache state. Returns the result,
the cache state afterwards, and the number of remote attempts performed. -/
def generateCommitMessage (diff : String) (summary : ChangeSummary)
    (f : Nat → RemoteOutcome) (now : Nat) (cwd : String) (c : CacheState) :
    PipelineResult × CacheState × Nat :=
  match cacheGet c (sha1Hex diff) now with
  | (some v, c1) => (⟨v.intent, v.message, some v.folder⟩, c1, 0)
  | (none, c1) =>
      match runRemote f with
      | (some r, n) =>
          (⟨r.intent, r.message, none⟩,
           cacheSet c1 (sha1Hex diff) r.intent r.message now cwd, n)
      | (none, n) =>
          (fallbackSuggestion diff summary,
           cacheSet c1 (sha1Hex diff) (fallbackSuggestion diff summary).intent
             (fallbackSuggestion diff summary).message now cwd, n)

/-! ### Definitions used by the claim statements -/

/-- The decision precedence exactly as the claim words it: no changes →
Chore; bug-fix or test-fix → BugFix; test → Test; docs → Documentation;
refactor or moved-code or removals > 2 × additions → Refactor; any
new-symbol signal → Feature; dependency or config → Chore; style or
whitespace-only → Style; otherwise Update. The categories are rendered with
the strings the code uses (BugFix prints as "Bug Fix"). -/
def claimedPrecedence (a : DiffAnalysis) : String :=
  if !a.hasChanges then "Chore"
  else if a.hasBugFix || a.hasTestFix then "Bug Fix"
  else if a.hasTestChange then "Test"
  else if a.hasDocsChange then "Documentation"
  else if a.hasRefactor || a.hasMovedCode ||
          decide (a.deletions > a.additions * 2) then "Refactor"
  else if a.hasNewFunction || a.hasNewClass || a.hasNewComponent ||
          a.hasNewEndpoint then "Feature"
  else if a.hasDependencyChange || a.hasConfigChange then "Chore"
  else if a.hasStyleChange || a.hasWhitespaceOnly then "Style"
  else "Update"

/-- Does the attempt loop stop at this outcome (successful parse, or the
client-error break)? Every other outcome leads to a retry while the attempt
budget lasts. -/
def stopsEarly (o : RemoteOutcome) : Bool :=
  match attemptResult o with
  | .ok _ => true
  | .error e => isClientError e

/-- Is the entry stored under `key` still within its TTL at time `t`? -/
def liveAt (c : CacheState) (key : String) (t : Nat) : Bool :=
  match mapFind c.mem key with
  | some e => decide (t - e.timestamp ≤ CACHE_MAX_AGE)
  | none => false

/-! ### Shared lemmas -/

theorem strLen_mk (l : List Char) : (String.mk l).length = l.length := rfl

theorem strLen_append (s t : String) : (s ++ t).length = s.length + t.length :=
  String.length_append s t

/-! ### Claim C5: the decision precedence of the heuristic classifier -/

/-- C5: `determineIntent` follows exactly the claimed first-match-wins
precedence over the feature vector. -/
theorem intentPrecedence (a : DiffAnalysis) :
    determineIntent a = claimedPrecedence a := by
  cases hb : a.hasBugFix <;>
    simp [determineIntent, claimedPrecedence, hb]

/-! ### Claim C2: which failures are retried -/

/-- C2 counterexample: a response with no `Intent:`/`Message:` labels is a
malformed response, yet the loop performs all three attempts — the claim
says such a failure terminates the call with no further attempts after the
first. -/
theorem malformedResponseIsRetried_cex :
    (runRemote (fun _ => RemoteOutcome.reply (some "no labels here"))).2 = 3 := by
  decide

/-- C2 amended: the call stops at the first attempt whose outcome is either
a successfully parsed reply or a non-429 response status below 500 (and
nonzero, as the code tests truthiness); every other failure — 429, 5xx,
any network-level failure, a malformed response, or any other error — is
retried until the three-attempt budget is exhausted. -/
theorem retryStopsOnlyOnSuccessOrClientError (f : Nat → RemoteOutcome) :
    (runRemote f).2 =
      (if stopsEarly (f 1) then 1 else if stopsEarly (f 2) then 2 else 3) ∧
    (runRemote f).1 =
      (match attemptResult (f ((runRemote f).2)) with
       | .ok r => some r
       | .error _ => none) := by
  cases h1 : attemptResult (f 1) with
  | ok r => simp [runRemote, runRemoteAux, stopsEarly, h1]
  | error e1 =>
    cases hc1 : isClientError e1 with
    | true => simp [runRemote, runRemoteAux, stopsEarly, h1, hc1]
    | false =>
      cases h2 : attemptResult (f 2) with
      | ok r => simp [runRemote, runRemoteAux, stopsEarly, h1, hc1, h2]
      | error e2 =>
        cases hc2 : isClientError e2 with
        | true => simp [runRemote, runRemoteAux, stopsEarly, h1, hc1, h2, hc2]
        | false =>
          cases h3 : attemptResult (f 3) with
          | ok r => simp [runRemote, runRemoteAux, stopsEarly, h1, hc1, h2, hc2, h3]
          | error e3 =>
            cases hc3 : isClientError e3 with
            | true =>
              simp [runRemote, runRemoteAux, stopsEarly, h1, hc1, h2, hc2, h3, hc3]
            | false =>
              simp [runRemote, runRemoteAux, stopsEarly, h1, hc1, h2, hc2, h3, hc3]

/-! ### Map and sort lemmas -/

theorem mapFind_mapDelete (l : List CacheEntry) (key : String) :
    mapFind (mapDelete l key) key = none := by
  induction l with
  | nil => rfl
  | cons x xs ih =>
    by_cases hx : x.hash == key
    · simp only [mapDelete, List.filter, hx] at ih ⊢
      exact ih
    · simpa [mapDelete, mapFind, List.filter, List.find?, hx] using ih

theorem mem_insertEnt {x y : CacheEntry} {l : List CacheEntry} :
    y ∈ insertEnt x l ↔ y = x ∨ y ∈ l := by
  induction l with
  | nil => simp [insertEnt]
  | cons z zs ih =>
    by_cases h : entLe x z
    · simp [insertEnt, h, ih]
    · simp [insertEnt, h, ih]
      tauto

theorem mem_sortDesc {y : CacheEntry} {l : List CacheEntry} :
    y ∈ sortDesc l ↔ y ∈ l := by
  induction l with
  | nil => simp [sortDesc]
  | cons x xs ih => simp [sortDesc, mem_insertEnt, ih]

theorem perm_insertEnt (x : CacheEntry) (l : List CacheEntry) :
    List.Perm (insertEnt x l) (x :: l) := by
  induction l with
  | nil => simp [insertEnt]
  | cons z zs ih =>
    by_cases h : entLe x z
    · simp [insertEnt, h]
    · simpa [insertEnt, h] using
        ((ih.cons z).trans (List.Perm.swap x z zs))

theorem perm_sortDesc (l : List CacheEntry) : List.Perm (sortDesc l) l := by
  induction l with
  | nil => simp [sortDesc]
  | cons x xs ih => exact (perm_insertEnt x (sortDesc xs)).trans (ih.cons x)

theorem pairwise_insertEnt {x : CacheEntry} {l : List CacheEntry}
    (h : l.Pairwise (fun a b => b.timestamp ≤ a.timestamp)) :
    (insertEnt x l).Pairwise (fun a b => b.timestamp ≤ a.timestamp) := by
  induction l with
  | nil => simp [insertEnt]
  | cons z zs ih =>
    rcases List.pairwise_cons.mp h with ⟨hz, hzs⟩
    cases hle : entLe x z with
    | true =>
      have hxz : z.timestamp ≤ x.timestamp := by simpa [entLe] using hle
      simp only [insertEnt, hle, if_true]
      refine List.pairwise_cons.mpr ⟨?_, h⟩
      intro y hy
      rcases List.mem_cons.mp hy with hyz | hy'
      · simpa [hyz] using hxz
      · exact Nat.le_trans (hz y hy') hxz
    | false =>
      have hzx : x.timestamp ≤ z.timestamp := by
        have hnot : ¬ z.timestamp ≤ x.timestamp := by simpa [entLe] using hle
        omega
      simp only [insertEnt, hle, if_false]
      refine List.pairwise_cons.mpr ⟨?_, ih hzs⟩
      intro y hy
      rcases mem_insertEnt.mp hy with hyx | hy'
      · simpa [hyx] using hzx
      · exact hz y hy'

theorem pairwise_sortDesc (l : List CacheEntry) :
    (sortDesc l).Pairwise (fun a b => b.timestamp ≤ a.timestamp) := by
  induction l with
  | nil => simp [sortDesc]
  | cons x xs ih => exact pairwise_insertEnt ih

/-! ### Claim C1: the orchestrator falls back instead of raising -/

/-- C1: when the cache misses and the remote classifier fails on all
attempts (any cause), `generateCommitMessage` returns — it cannot raise, its
result type is total — exactly the heuristic fallback suggestion computed
from the same diff text and summary. -/
theorem fallbackOnRemoteFailure (d : String) (s : ChangeSummary)
    (f : Nat → RemoteOutcome) (now : Nat) (cwd : String) (c : CacheState)
    (hmiss : (cacheGet c (sha1Hex d) now).1 = none)
    (hfail : (runRemote f).1 = none) :
    (generateCommitMessage d s f now cwd c).1 = fallbackSuggestion d s := by
  unfold generateCommitMessage
  rcases hg : cacheGet c (sha1Hex d) now with ⟨o, c1⟩
  rcases hr : runRemote f with ⟨ro, n⟩
  rw [hg] at hmiss
  rw [hr] at hfail
  simp only at hmiss hfail
  subst hmiss
  subst hfail
  simp [hg, hr]

/-- C1 witness: three consecutive 500 responses on an empty cache yield the
heuristic fallback result. -/
theorem fallbackOnRemoteFailure_witness :
    (generateCommitMessage "+fix crash" ⟨some 2, none⟩
        (fun _ => RemoteOutcome.httpStatus 500) 0 "w" ⟨[], []⟩).1 =
      fallbackSuggestion "+fix crash" ⟨some 2, none⟩ :=
  fallbackOnRemoteFailure "+fix crash" ⟨some 2, none⟩
    (fun _ => RemoteOutcome.httpStatus 500) 0 "w" ⟨[], []⟩ (by rfl) (by decide)

/-! ### Claim C7: lookup evicts expired entries -/

/-- C7: when the stored entry for a digest is older than the TTL at lookup
time, `get` returns absent, removes the entry from the in-memory map,
persists the removal (the file equals the new map), and the entry is gone
from subsequent history snapshots. -/
theorem expiredLookupEvicts (c : CacheState) (d : String) (now : Nat)
    (e : CacheEntry)
    (he : mapFind c.mem (hashDiff d) = some e)
    (hexp : now - e.timestamp > CACHE_MAX_AGE) :
    (cacheGet c d now).1 = none ∧
    mapFind (cacheGet c d now).2.mem (hashDiff d) = none ∧
    (cacheGet c d now).2.disk = (cacheGet c d now).2.mem ∧
    e ∉ getHistory (cacheGet c d now).2 := by
  have he2 : List.find? (fun x => x.hash == hashDiff d) c.mem = some e := he
  have hkey : (e.hash == hashDiff d) = true := by
    simpa using List.find?_some he2
  have hg : cacheGet c d now =
      (none, ⟨mapDelete c.mem (hashDiff d), mapDelete c.mem (hashDiff d)⟩) := by
    simp [cacheGet, he, hexp]
  refine ⟨by simp [hg], by simp [hg, mapFind_mapDelete], by simp [hg], ?_⟩
  rw [hg]
  intro hmem
  have hmem2 : e ∈ mapDelete c.mem (hashDiff d) := by
    simpa [getHistory, mem_sortDesc] using hmem
  have : (!(e.hash == hashDiff d)) = true := (List.mem_filter.mp hmem2).2
  simp [hkey] at this

/-- C7 witness at a concrete expired entry. -/
theorem expiredLookupEvicts_witness :
    (cacheGet ⟨[⟨hashDiff "d", "i", "m", 0, "f"⟩], [⟨hashDiff "d", "i", "m", 0, "f"⟩]⟩
        "d" 2592000001).1 = none ∧
    mapFind (cacheGet ⟨[⟨hashDiff "d", "i", "m", 0, "f"⟩], [⟨hashDiff "d", "i", "m", 0, "f"⟩]⟩
        "d" 2592000001).2.mem (hashDiff "d") = none ∧
    (cacheGet ⟨[⟨hashDiff "d", "i", "m", 0, "f"⟩], [⟨hashDiff "d", "i", "m", 0, "f"⟩]⟩
        "d" 2592000001).2.disk =
      (cacheGet ⟨[⟨hashDiff "d", "i", "m", 0, "f"⟩], [⟨hashDiff "d", "i", "m", 0, "f"⟩]⟩
        "d" 2592000001).2.mem ∧
    (⟨hashDiff "d", "i", "m", 0, "f"⟩ : CacheEntry) ∉
      getHistory (cacheGet ⟨[⟨hashDiff "d", "i", "m", 0, "f"⟩], [⟨hashDiff "d", "i", "m", 0, "f"⟩]⟩
        "d" 2592000001).2 :=
  expiredLookupEvicts _ "d" 2592000001 ⟨hashDiff "d", "i", "m", 0, "f"⟩
    (by simp [mapFind]) (by decide)

/-! ### Claim C9: clear empties the cache and reports the removed count -/

/-- C9: on a nonempty cache the clear-cache command removes every entry
(in memory and on disk) and reports exactly the number of entries that were
removed; afterwards every lookup returns absent. The count the command
prints is the `getStats().size` it reads before calling `clear()` (which
itself returns nothing). -/
theorem clearRemovesAllAndReportsCount (c : CacheState) (h : c.mem ≠ []) :
    (clearCacheCommand c).1 = some c.mem.length ∧
    (clearCacheCommand c).2.mem = [] ∧
    (clearCacheCommand c).2.disk = [] ∧
    ∀ (d : String) (now : Nat), (cacheGet (clearCacheCommand c).2 d now).1 = none := by
  have hlen : c.mem.length ≠ 0 := fun hh => h (List.length_eq_zero.mp hh)
  have hcmd : clearCacheCommand c = (some c.mem.length, ⟨[], []⟩) := by
    simp [clearCacheCommand, getStats, clearCache, hlen]
  exact ⟨by simp [hcmd], by simp [hcmd], by simp [hcmd],
    fun d now => by simp [hcmd, cacheGet, mapFind]⟩

theorem find_replace (l : List CacheEntry) (e : CacheEntry)
    (h : l.any (fun x => x.hash == e.hash) = true) :
    (l.map (fun x => if x.hash == e.hash then e else x)).find?
      (fun x => x.hash == e.hash) = some e := by
  induction l with
  | nil => simp at h
  | cons x xs ih =>
    by_cases hx : (x.hash == e.hash) = true
    · simp [List.find?, hx]
    · have h2 : xs.any (fun y => y.hash == e.hash) = true := by
        simpa [List.any_cons, hx] using h
      simpa [List.find?, hx] using ih h2

theorem find_append_self (l : List CacheEntry) (e : CacheEntry)
    (h : l.any (fun x => x.hash == e.hash) = false) :
    (l ++ [e]).find? (fun x => x.hash == e.hash) = some e := by
  induction l with
  | nil => simp [List.find?]
  | cons x xs ih =>
    simp only [List.any_cons, Bool.or_eq_false_iff] at h
    obtain ⟨hx, hxs⟩ := h
    simpa [List.find?, hx] using ih hxs

theorem mapFind_mapSet (l : List CacheEntry) (e : CacheEntry) :
    mapFind (mapSet l e) e.hash = some e := by
  unfold mapFind mapSet
  cases h : l.any (fun x => x.hash == e.hash) with
  | true => simpa [h] using find_replace l e h
  | false => simpa [h] using find_append_self l e h

/-! ### Orchestrator helper lemmas -/

theorem gen_hit (d : String) (s : ChangeSummary) (f : Nat → RemoteOutcome)
    (now : Nat) (cwd : String) (c : CacheState) (v : CachedSuggestion)
    (c1 : CacheState) (hg : cacheGet c (sha1Hex d) now = (some v, c1)) :
    generateCommitMessage d s f now cwd c =
      (⟨v.intent, v.message, some v.folder⟩, c1, 0) := by
  unfold generateCommitMessage
  rw [hg]

/-- Inversion of a successful `get`: a hit comes from a stored entry that is
not past the TTL, the returned fields are the entry's, and the state is
unchanged. -/
theorem cacheGet_some (c : CacheState) (d : String) (now : Nat)
    (v : CachedSuggestion) (c1 : CacheState)
    (h : cacheGet c d now = (some v, c1)) :
    ∃ e : CacheEntry, mapFind c.mem (hashDiff d) = some e ∧
      ¬ (now - e.timestamp > CACHE_MAX_AGE) ∧
      v = ⟨e.intent, e.message, e.folder⟩ ∧ c1 = c := by
  unfold cacheGet at h
  rcases hf : mapFind c.mem (hashDiff d) with _ | e
  · rw [hf] at h
    simp at h
  · rw [hf] at h
    dsimp only at h
    by_cases hexp : now - e.timestamp > CACHE_MAX_AGE
    · simp [hexp] at h
    · rw [if_neg hexp] at h
      injection h with h1 h2
      injection h1 with h1
      exact ⟨e, rfl, hexp, h1.symm, h2.symm⟩

/-- After any call to `generateCommitMessage`, the cache holds an entry for
the pipeline key whose intent and message are exactly the returned ones. -/
theorem gen_stores (d : String) (s : ChangeSummary) (f : Nat → RemoteOutcome)
    (now : Nat) (cwd : String) (c : CacheState) :
    ∃ e : CacheEntry,
      mapFind (generateCommitMessage d s f now cwd c).2.1.mem
        (hashDiff (sha1Hex d)) = some e ∧
      e.intent = (generateCommitMessage d s f now cwd c).1.intent ∧
      e.message = (generateCommitMessage d s f now cwd c).1.message := by
  rcases hg : cacheGet c (sha1Hex d) now with ⟨o, c1⟩
  cases o with
  | some v =>
    obtain ⟨e, hfind, hexp, hv, hc⟩ := cacheGet_some c (sha1Hex d) now v c1 hg
    rw [gen_hit d s f now cwd c v c1 hg]
    subst hc
    exact ⟨e, hfind, by simp [hv], by simp [hv]⟩
  | none =>
    unfold generateCommitMessage
    rw [hg]
    rcases hr : runRemote f with ⟨ro, n⟩
    cases ro with
    | some r =>
        exact ⟨⟨hashDiff (sha1Hex d), r.intent, r.message, now, cwd⟩,
          mapFind_mapSet c1.mem _, rfl, rfl⟩
    | none =>
        exact ⟨⟨hashDiff (sha1Hex d), (fallbackSuggestion d s).intent,
            (fallbackSuggestion d s).message, now, cwd⟩,
          mapFind_mapSet c1.mem _, rfl, rfl⟩

/-! ### Claim C3: idempotence within the TTL window -/

/-- C3: two calls with the identical diff text, the second while the stored
entry is within its 30-day TTL, return the identical commit suggestion
(intent and message), and the second call performs zero remote attempts —
the endpoint is invoked during at most one of the two calls. -/
theorem idempotentWithinTtl (d : String) (s : ChangeSummary)
    (f1 f2 : Nat → RemoteOutcome) (t0 t1 : Nat) (cwd : String) (c0 : CacheState)
    (hlive : liveAt (generateCommitMessage d s f1 t0 cwd c0).2.1
      (hashDiff (sha1Hex d)) t1 = true) :
    (generateCommitMessage d s f2 t1 cwd
        (generateCommitMessage d s f1 t0 cwd c0).2.1).1.intent =
      (generateCommitMessage d s f1 t0 cwd c0).1.intent ∧
    (generateCommitMessage d s f2 t1 cwd
        (generateCommitMessage d s f1 t0 cwd c0).2.1).1.message =
      (generateCommitMessage d s f1 t0 cwd c0).1.message ∧
    (generateCommitMessage d s f2 t1 cwd
        (generateCommitMessage d s f1 t0 cwd c0).2.1).2.2 = 0 := by
  obtain ⟨e, hfind, hint, hmsg⟩ := gen_stores d s f1 t0 cwd c0
  have hle : t1 - e.timestamp ≤ CACHE_MAX_AGE := by
    unfold liveAt at hlive
    rw [hfind] at hlive
    simpa using hlive
  have hnot : ¬ (t1 - e.timestamp > CACHE_MAX_AGE) := by omega
  have hget : cacheGet (generateCommitMessage d s f1 t0 cwd c0).2.1 (sha1Hex d) t1 =
      (some ⟨e.intent, e.message, e.folder⟩,
       (generateCommitMessage d s f1 t0 cwd c0).2.1) := by
    simp [cacheGet, hfind, hnot]
  rw [gen_hit d s f2 t1 cwd _ ⟨e.intent, e.message, e.folder⟩ _ hget]
  exact ⟨hint, hmsg, rfl⟩

/-- C3 witness: a first call that falls back (three thrown attempts) on an
empty cache, and a second call five milliseconds later. -/
theorem idempotentWithinTtl_witness :
    (generateCommitMessage "+x" ⟨none, none⟩ (fun _ => RemoteOutcome.thrown) 5 "w"
        (generateCommitMessage "+x" ⟨none, none⟩ (fun _ => RemoteOutcome.thrown) 0 "w"
          ⟨[], []⟩).2.1).1.intent =
      (generateCommitMessage "+x" ⟨none, none⟩ (fun _ => RemoteOutcome.thrown) 0 "w"
        ⟨[], []⟩).1.intent ∧
    (generateCommitMessage "+x" ⟨none, none⟩ (fun _ => RemoteOutcome.thrown) 5 "w"
        (generateCommitMessage "+x" ⟨none, none⟩ (fun _ => RemoteOutcome.thrown) 0 "w"
          ⟨[], []⟩).2.1).1.message =
      (generateCommitMessage "+x" ⟨none, none⟩ (fun _ => RemoteOutcome.thrown) 0 "w"
        ⟨[], []⟩).1.message ∧
    (generateCommitMessage "+x" ⟨none, none⟩ (fun _ => RemoteOutcome.thrown) 5 "w"
        (generateCommitMessage "+x" ⟨none, none⟩ (fun _ => RemoteOutcome.thrown) 0 "w"
          ⟨[], []⟩).2.1).2.2 = 0 :=
  idempotentWithinTtl "+x" ⟨none, none⟩ (fun _ => RemoteOutcome.thrown)
    (fun _ => RemoteOutcome.thrown) 0 5 "w" ⟨[], []⟩ (by decide)

/-! ### Claim C8: what the snapshots return -/

/-- C8 counterexample: an entry whose age exceeds the 30-day TTL at the
moment of the call is still returned by `getHistory` — neither `getHistory`
nor `getStats` consults the clock, so TTL-expired entries are not excluded
as the claim states. -/
theorem historyIncludesExpired_cex :
    (2592000001 : Nat) - (⟨"h", "i", "m", 0, "f"⟩ : CacheEntry).timestamp >
      CACHE_MAX_AGE ∧
    (⟨"h", "i", "m", 0, "f"⟩ : CacheEntry) ∈
      getHistory ⟨[⟨"h", "i", "m", 0, "f"⟩], [⟨"h", "i", "m", 0, "f"⟩]⟩ := by
  constructor
  · decide
  · simp [getHistory, sortDesc, insertEnt]

/-- C8 amended: `getHistory` returns exactly the entries currently in the
in-memory map (a permutation of them), sorted most-recent-first, and
`getStats` reports their count — with no TTL filtering at call time;
expired entries are dropped only at load time and lazily by `get`. -/
theorem historySortedPermutation (c : CacheState) :
    List.Perm (getHistory c) c.mem ∧
    (getHistory c).Pairwise (fun a b => b.timestamp ≤ a.timestamp) ∧
    (getStats c).size = c.mem.length :=
  ⟨perm_sortDesc c.mem, pairwise_sortDesc c.mem, rfl⟩

/-! ### Claim C10: a cache hit carries the stored folder field -/

/-- C10: on a live hit, `get` returns the stored entry's `folder` field
alongside its intent and message; `set` records the working-directory name
in the entry; `generateCommitMessage` returns a cache hit unmodified, so a
cache-hit result carries `folder`, while any freshly computed result
(remote or fallback) carries none. -/
theorem cacheHitCarriesFolder :
    (∀ (c : CacheState) (d : String) (now : Nat) (e : CacheEntry),
      mapFind c.mem (hashDiff d) = some e →
      ¬ (now - e.timestamp > CACHE_MAX_AGE) →
      (cacheGet c d now).1 = some ⟨e.intent, e.message, e.folder⟩) ∧
    (∀ (c : CacheState) (d intent message : String) (now : Nat) (cwd : String),
      mapFind (cacheSet c d intent message now cwd).mem (hashDiff d) =
        some ⟨hashDiff d, intent, message, now, cwd⟩) ∧
    (∀ (d : String) (s : ChangeSummary) (f : Nat → RemoteOutcome) (now : Nat)
       (cwd : String) (c : CacheState) (v : CachedSuggestion),
      (cacheGet c (sha1Hex d) now).1 = some v →
      (generateCommitMessage d s f now cwd c).1 =
        ⟨v.intent, v.message, some v.folder⟩) ∧
    (∀ (d : String) (s : ChangeSummary) (f : Nat → RemoteOutcome) (now : Nat)
       (cwd : String) (c : CacheState),
      (cacheGet c (sha1Hex d) now).1 = none →
      (generateCommitMessage d s f now cwd c).1.folder = none) := by
  refine ⟨?_, ?_, ?_, ?_⟩
  · intro c d now e he hexp
    simp [cacheGet, he, hexp]
  · intro c d intent message now cwd
    exact mapFind_mapSet c.mem ⟨hashDiff d, intent, message, now, cwd⟩
  · intro d s f now cwd c v hv
    unfold generateCommitMessage
    rcases hg : cacheGet c (sha1Hex d) now with ⟨o, c1⟩
    rw [hg] at hv
    simp only at hv
    subst hv
    simp [hg]
  · intro d s f now cwd c hv
    unfold generateCommitMessage
    rcases hg : cacheGet c (sha1Hex d) now with ⟨o, c1⟩
    rw [hg] at hv
    simp only at hv
    subst hv
    rcases hr : runRemote f with ⟨ro, n⟩
    cases ro <;> simp [hg, hr, fallbackSuggestion]

/-- C10 witness: a concrete hit returns the stored folder; a concrete fresh
result has none. -/
theorem cacheHitCarriesFolder_witness :
    (generateCommitMessage "d" ⟨none, none⟩ (fun _ => RemoteOutcome.thrown) 6 "w"
        ⟨[⟨hashDiff (sha1Hex "d"), "i", "m", 5, "f"⟩],
         [⟨hashDiff (sha1Hex "d"), "i", "m", 5, "f"⟩]⟩).1 =
      ⟨"i", "m", some "f"⟩ ∧
    (generateCommitMessage "d" ⟨none, none⟩ (fun _ => RemoteOutcome.thrown) 6 "w"
        ⟨[], []⟩).1.folder = none :=
  ⟨cacheHitCarriesFolder.2.2.1 "d" ⟨none, none⟩ (fun _ => RemoteOutcome.thrown) 6 "w"
      ⟨[⟨hashDiff (sha1Hex "d"), "i", "m", 5, "f"⟩],
       [⟨hashDiff (sha1Hex "d"), "i", "m", 5, "f"⟩]⟩ ⟨"i", "m", "f"⟩
      (by simp [cacheGet, mapFind, CACHE_MAX_AGE]),
   cacheHitCarriesFolder.2.2.2 "d" ⟨none, none⟩ (fun _ => RemoteOutcome.thrown) 6 "w"
      ⟨[], []⟩ (by rfl)⟩

/-- C9 witness on a one-entry cache. -/
theorem clearRemovesAllAndReportsCount_witness :
    (clearCacheCommand ⟨[⟨"h", "i", "m", 5, "f"⟩], [⟨"h", "i", "m", 5, "f"⟩]⟩).1 = some 1 ∧
    (cacheGet (clearCacheCommand ⟨[⟨"h", "i", "m", 5, "f"⟩], [⟨"h", "i", "m", 5, "f"⟩]⟩).2
        "anything" 7).1 = none :=
  ⟨(clearRemovesAllAndReportsCount ⟨[⟨"h", "i", "m", 5, "f"⟩], [⟨"h", "i", "m", 5, "f"⟩]⟩
      (by decide)).1,
   (clearRemovesAllAndReportsCount ⟨[⟨"h", "i", "m", 5, "f"⟩], [⟨"h", "i", "m", 5, "f"⟩]⟩
      (by decide)).2.2.2 "anything" 7⟩

/-! ### Claim C6: the cache digest and the pipeline cache key -/

theorem wordHex_len (w : Nat) : (wordHex w).length = 8 := rfl

theorem sha256Hex_len (s : String) : (sha256Hex s).length = 64 := by
  unfold sha256Hex hash8Hex
  rcases sha256Words (utf8Bytes s) with ⟨a, b, c, d, e, f, g, h⟩
  simp [strLen_mk, wordHex_len]

/-- C6 counterexample: the two diff texts `"x"` and `" x"` are equal after
trimming, yet the pipeline computes different cache keys for them, because
the service pre-hashes the raw (untrimmed) diff with sha1 before the
cache's sha256-over-trimmed-input digest. -/
theorem pipelineKeyNotTrimInvariant_cex :
    jsTrim "x" = jsTrim " x" ∧
    pipelineCacheKey "x" ≠ pipelineCacheKey " x" := by
  constructor
  · rfl
  · decide

/-- C6 amended: the cache's own digest is a 256-bit (64 hex character)
hash over the trimmed input, so inputs equal after trimming receive equal
cache digests; the pipeline, however, keys the cache by
sha256(sha1hex(rawDiff)), which is still deterministic — identical diff
texts always receive the identical key — but not invariant under
trimming of the diff itself. -/
theorem cacheDigestStable :
    (∀ d1 d2 : String, jsTrim d1 = jsTrim d2 → hashDiff d1 = hashDiff d2) ∧
    (∀ d : String, (hashDiff d).length = 64) ∧
    (∀ d1 d2 : String, d1 = d2 → pipelineCacheKey d1 = pipelineCacheKey d2) :=
  ⟨fun d1 d2 h => by unfold hashDiff; rw [h],
   fun d => sha256Hex_len (jsTrim d),
   fun d1 d2 h => by rw [h]⟩

/-- C6 witness at concrete inputs. -/
theorem cacheDigestStable_witness :
    hashDiff " a" = hashDiff "a " ∧
    (hashDiff "q").length = 64 ∧
    pipelineCacheKey "z" = pipelineCacheKey "z" :=
  ⟨cacheDigestStable.1 " a" "a " (by rfl),
   cacheDigestStable.2.1 "q",
   cacheDigestStable.2.2 "z" "z" rfl⟩

/-! ### Claim C4: every produced message fits in 70 characters -/

theorem decDigitsAux_len (fuel : Nat) :
    ∀ n k : Nat, 0 < k → n < 10 ^ k → n < fuel →
      (decDigitsAux fuel n).length ≤ k := by
  induction fuel with
  | zero => intro n k _ _ hf; exact absurd hf (Nat.not_lt_zero n)
  | succ fuel ih =>
    intro n k hk hnk hf
    by_cases h10 : n < 10
    · simp [decDigitsAux, h10]
      omega
    · have hk2 : 2 ≤ k := by
        rcases Nat.lt_or_ge k 2 with hlt | hge
        · have hk1 : k = 1 := by omega
          rw [hk1] at hnk
          simp at hnk
          omega
        · exact hge
      simp only [decDigitsAux, h10, if_false, List.length_append,
        List.length_cons, List.length_nil]
      have hpow : 10 ^ k = 10 ^ (k - 1) * 10 := by
        have h2 : k - 1 + 1 = k := Nat.sub_add_cancel (by omega)
        calc 10 ^ k = 10 ^ (k - 1 + 1) := by rw [h2]
          _ = 10 ^ (k - 1) * 10 := pow_succ 10 (k - 1)
      have hdiv : n / 10 < 10 ^ (k - 1) := by
        apply Nat.div_lt_of_lt_mul
        omega
      have hfuel : n / 10 < fuel := by
        have : n / 10 < n := Nat.div_lt_self (by omega) (by omega)
        omega
      have := ih (n / 10) (k - 1) (by omega) hdiv hfuel
      omega

theorem numToStr_len {n : Nat} (h : n < 10 ^ 21) : (numToStr n).length ≤ 21 := by
  unfold numToStr
  rw [strLen_mk]
  exact decDigitsAux_len (n + 1) n 21 (by omega) h (by omega)

theorem counted_len (pre : String) (n : Nat) (w : String)
    (hp : pre.length ≤ 26) (hn : n < 10 ^ 21) (hw : w.length ≤ 5) :
    (pre ++ numToStr n ++ " " ++ w).length ≤ 70 := by
  rw [strLen_append, strLen_append, strLen_append]
  have h1 := numToStr_len hn
  have h2 : (" " : String).length = 1 := rfl
  omega

set_option maxHeartbeats 2000000 in
/-- Every rendered heuristic template fits in 70 characters, for any
feature vector, any intent string, and any file count below 10^21 (the
bound up to which the JS runtime renders an integer in positional decimal
notation, which the embedding models). -/
theorem genMessage_len (a : DiffAnalysis) (intent : String) (s : ChangeSummary)
    (h : ∀ n, s.total = some n → n < 10 ^ 21) :
    (generateMessage a intent s).length ≤ 70 := by
  rcases hts : s.total with _ | n
  · simp only [generateMessage, hasFileCount, fileWord, hts, Option.getD]
    split_ifs <;> decide
  · have hn : n < 10 ^ 21 := h n hts
    simp only [generateMessage, hasFileCount, fileWord, hts, Option.getD]
    split_ifs <;>
      first
        | exact counted_len _ n _ (by decide) hn (by decide)
        | decide

/-- C4: a successfully parsed remote message has length at most 70 (longer
messages are truncated to 67 characters plus a three-character ellipsis);
every heuristic template — for any intent, any sub-signal, and any file
count the runtime renders positionally — is at most 70 characters with no
truncation involved; hence so is every fallback suggestion's message. -/
theorem messageLengthAtMost70 :
    (∀ (resp : String) (r : CommitSuggestion),
      parseResponse resp = Except.ok r → r.message.length ≤ 70) ∧
    (∀ (a : DiffAnalysis) (intent : String) (s : ChangeSummary),
      (∀ n, s.total = some n → n < 10 ^ 21) →
      (generateMessage a intent s).length ≤ 70) ∧
    (∀ (d : String) (s : ChangeSummary),
      (∀ n, s.total = some n → n < 10 ^ 21) →
      (fallbackSuggestion d s).message.length ≤ 70) := by
  refine ⟨?_, ?_, ?_⟩
  · intro resp r h
    unfold parseResponse checkLabels at h
    rcases hlm : parseLabels (splitNl (jsTrim resp)) with ⟨i, m⟩
    rw [hlm] at h
    dsimp only at h
    by_cases h0 : i = "" ∨ m = ""
    · simp [h0] at h
    · rw [if_neg h0] at h
      by_cases h70 : m.length > 70
      · rw [if_pos h70] at h
        injection h with h1
        rw [← h1]
        dsimp only
        rw [strLen_append]
        have : (jsTake m 67).length = min 67 m.length := by
          unfold jsTake
          rw [strLen_mk, List.length_take]
          rfl
        have h3 : ("..." : String).length = 3 := rfl
        omega
      · rw [if_neg h70] at h
        injection h with h1
        rw [← h1]
        dsimp only
        omega
  · intro a intent s h
    exact genMessage_len a intent s h
  · intro d s h
    exact genMessage_len (analyzeDiff d s) (determineIntent (analyzeDiff d s)) s h

/-- C4 witness: a long remote message is truncated to 70 characters, and a
concrete template with a file count stays within 70. -/
theorem messageLengthAtMost70_witness :
    (String.mk (List.replicate 67 'x') ++ "...").length ≤ 70 ∧
    (generateMessage ⟨false, false, false, false, false, false, false, false,
        false, false, false, false, false, false, false, false, false, 0, 0,
        false⟩ "Update" ⟨some 3, none⟩).length ≤ 70 ∧
    (fallbackSuggestion "+x" ⟨some 3, none⟩).message.length ≤ 70 :=
  ⟨messageLengthAtMost70.1
      ("Intent: A\nMessage: " ++ String.mk (List.replicate 80 'x'))
      ⟨"A", String.mk (List.replicate 67 'x') ++ "..."⟩ (by rfl),
   messageLengthAtMost70.2.1
      ⟨false, false, false, false, false, false, false, false, false, false,
       false, false, false, false, false, false, false, 0, 0, false⟩
      "Update" ⟨some 3, none⟩ (by intro n hn; cases hn; decide),
   messageLengthAtMost70.2.2 "+x" ⟨some 3, none⟩
      (by intro n hn; cases hn; decide)⟩

end CommiTect
